import Mathlib

/-!
Verification of the TorchFort on-policy PPO trainer and its GAE-λ rollout
buffer, as described in the repository specification.

The rollout-buffer implementation (`rollout_buffer.h`) is not part of the
source tree that was provided; only its tests and callers are.  Following the
specification, the buffer is modelled here over exact rationals:
floating-point rounding is abstracted away, so the spec's "up to
floating-point rounding" statements become exact equalities.

The PPO training step (`train_ppo` in
`src/csrc/include/internal/rl/on_policy/ppo.h`) is embedded over the reals,
with tensor columns as lists and the multi-process communicator and the two
network forward passes (which are external collaborators per the spec) as
oracles.  `torch::mean` is dtype-aware in this embedding: applied to a Bool
tensor (as at ppo.h line 199) it raises an error, matching ATen's dtype
check, and the error's propagation out of the call is modelled explicitly.
-/

namespace TorchFort

/-- One timestep of a trajectory, with the two fields written at
finalization.  Modelled from the spec: `rollout_buffer.h` is missing from
the provided sources; the field set follows spec §3 and the tuple order of
`update` in `tests/rl/test_rollout_buffer.cpp` (state, action, reward, q =
value estimate, log_p, done). -/
structure Entry where
  state : List ℚ
  action : List ℚ
  reward : ℚ
  q : ℚ
  log_p : ℚ
  done : Bool
  advantage : ℚ
  ret : ℚ
deriving DecidableEq

/-- The entry whose every scalar field is zero; used as the out-of-range
default for list indexing.  Its `advantage` is 0, so `getD` at index `T`
encodes the spec's boundary condition `advantage[T] = 0`. -/
def defaultEntry : Entry :=
  { state := [], action := [], reward := 0, q := 0, log_p := 0,
    done := false, advantage := 0, ret := 0 }

instance : Inhabited Entry := ⟨defaultEntry⟩

/-- Modelled from the spec (§4.1 `finalize`): the backward GAE-λ recursion
over the stored window, oldest entry first.  For each entry `t` (with `T`
entries in total):
`next_value = value_estimate[t+1] if t+1 < T else bootstrap_value`,
`next_nonterminal = 0 if done[t] else 1`,
`delta = reward[t] + gamma * next_value * next_nonterminal - value_estimate[t]`,
`advantage[t] = delta + gamma * lambda * next_nonterminal * advantage[t+1]`
(with `advantage[T] = 0`), and
`return[t] = advantage[t] + value_estimate[t]`.
The value estimate of the next entry, or the bootstrap value at the end of
the window. -/
def nextQ (bootstrap_value : ℚ) : List Entry → ℚ
  | [] => bootstrap_value
  | e :: _ => e.q

/-- The advantage of the next (already finalized) entry; 0 past the end of
the window (`advantage[T] = 0`). -/
def headAdv : List Entry → ℚ
  | [] => 0
  | f :: _ => f.advantage

/-- Modelled from the spec (§4.1 `finalize`): the backward GAE-λ pass over
the window, oldest entry first, computing `delta` and `advantage[t]` from
`nextQ` and the next entry's already-computed advantage, and writing
`return[t] = advantage[t] + value_estimate[t]`. -/
def finalizeEntries (gamma gae_lambda bootstrap_value : ℚ) : List Entry → List Entry
  | [] => []
  | e :: rest =>
    let tailFin := finalizeEntries gamma gae_lambda bootstrap_value rest
    let next_nonterminal : ℚ := if e.done then 0 else 1
    let delta : ℚ := e.reward + gamma * nextQ bootstrap_value rest * next_nonterminal - e.q
    let adv : ℚ := delta + gamma * gae_lambda * next_nonterminal * headAdv tailFin
    { e with advantage := adv, ret := adv + e.q } :: tailFin

/-- Modelled from the spec (§4.1): the rollout buffer's state.  Entries are
kept in logical (time) order, oldest first; the circular overwrite of the
oldest entry once `capacity` entries have been written is modelled by
dropping the head of the list.  `written` counts all `update` calls and
`finalized` records whether `finalize` has run since the last write. -/
structure RolloutBuffer where
  capacity : ℕ
  gamma : ℚ
  gae_lambda : ℚ
  entries : List Entry
  written : ℕ
  finalized : Bool
deriving DecidableEq

/-- Buffer faults (spec §7: contract violations are surfaced as errors,
never silently coerced). -/
inductive RBFault where
  | notReady
  | notFinalized
  | outOfRange
deriving DecidableEq

/-- Modelled from the spec (§4.1 `update`): appends one entry in time order;
once `capacity` entries are stored the oldest entry is overwritten (dropped
from the front here).  A write invalidates a previous finalization. -/
def RolloutBuffer.update (buf : RolloutBuffer) (s a : List ℚ) (r q lp : ℚ)
    (d : Bool) : RolloutBuffer :=
  let e : Entry :=
    { state := s, action := a, reward := r, q := q, log_p := lp, done := d,
      advantage := 0, ret := 0 }
  let es := buf.entries ++ [e]
  { buf with
    entries := if buf.capacity < es.length then es.tail else es,
    written := buf.written + 1,
    finalized := false }

/-- Modelled from the spec (§4.1 `isReady`): true once `capacity` entries
have been written. -/
def RolloutBuffer.isReady (buf : RolloutBuffer) : Bool :=
  buf.capacity ≤ buf.written

/-- Modelled from the spec (§4.1 `finalize`): runs the backward GAE-λ pass
over the stored window.  The spec's recursion does not consult
`bootstrap_done`; the argument is kept for interface fidelity. -/
def RolloutBuffer.finalize (buf : RolloutBuffer) (bootstrap_value : ℚ)
    (_bootstrap_done : Bool) : RolloutBuffer :=
  { buf with
    entries := finalizeEntries buf.gamma buf.gae_lambda bootstrap_value buf.entries,
    finalized := true }

/-- The tuple returned by `get(i)`.  Its shape is fixed by the in-source
caller `print_buffer` in `tests/rl/test_rollout_buffer.cpp`, which
destructures `get(i)` into exactly `(state, action, reward, q, log_p,
done)`. -/
structure GetRow where
  state : List ℚ
  action : List ℚ
  reward : ℚ
  q : ℚ
  log_p : ℚ
  done : Bool
deriving DecidableEq

/-- Projection of a stored entry to the tuple shape `get` returns. -/
def Entry.toGetRow (e : Entry) : GetRow :=
  { state := e.state, action := e.action, reward := e.reward, q := e.q,
    log_p := e.log_p, done := e.done }

/-- Modelled from the spec (§4.1 `get`, §7): returns the stored entry at
logical index `i` (0-based, oldest first); calling before the buffer is
ready or finalized, or with an index outside `[0, capacity)`, is a fault.
The returned tuple shape `(state, action, reward, q, log_p, done)` follows
the in-source test caller. -/
def RolloutBuffer.get (buf : RolloutBuffer) (i : ℕ) : Except RBFault GetRow :=
  if buf.isReady = false then .error .notReady
  else if buf.finalized = false then .error .notFinalized
  else
    match buf.entries.get? i with
    | some e => .ok e.toGetRow
    | none => .error .outOfRange

/-- One row of a sampled minibatch: the stacked columns `(state, action,
value_estimate, log_prob, advantage, return)` in the order fixed by spec
§4.1 `sample` and the test's destructuring. -/
structure SampleRow where
  state : List ℚ
  action : List ℚ
  q : ℚ
  log_p : ℚ
  advantage : ℚ
  ret : ℚ
deriving DecidableEq

/-- Projection of a stored entry to a sampled row. -/
def Entry.toSampleRow (e : Entry) : SampleRow :=
  { state := e.state, action := e.action, q := e.q, log_p := e.log_p,
    advantage := e.advantage, ret := e.ret }

/-- Modelled from the spec (§4.1 `sample`, §7): draws the entries at the
given indices (the uniform random draw with replacement is abstracted into
the index list); fails when the buffer is not ready, not finalized, or an
index falls outside `[0, capacity)`. -/
def RolloutBuffer.sample (buf : RolloutBuffer) (idxs : List ℕ) :
    Except RBFault (List SampleRow) :=
  if buf.isReady = false then .error .notReady
  else if buf.finalized = false then .error .notFinalized
  else if idxs.all (fun i => decide (i < buf.capacity)) then
    .ok (idxs.map fun i => (buf.entries.getD i defaultEntry).toSampleRow)
  else .error .outOfRange

/-- True when a buffer operation surfaced a fault. -/
def faulted {α : Type} : Except RBFault α → Bool
  | .error _ => true
  | .ok _ => false

/-! ## The PPO training step (`train_ppo`, ppo.h lines 61-245)

Tensor columns of shape `[B, 1]` are embedded as `List ℝ`; the two-dimensional
tensors produced by the broadcast operations in the advantage-normalization
block are embedded as `List (List ℝ)` in row-major order. -/

/-- `torch::mean` of a one-dimensional list: sum divided by length. -/
noncomputable def listMean (xs : List ℝ) : ℝ := xs.sum / (xs.length : ℝ)

/-- `torch::clamp(x, lo, hi) = min(max(x, lo), hi)`. -/
noncomputable def clampR (x lo hi : ℝ) : ℝ := min (max x lo) hi

/-- A `[B, 1]` column tensor built from a length-`B` column of scalars. -/
def toCol (v : List ℝ) : List (List ℝ) := v.map fun a => [a]

/-- `torch::mean(t, /*dim=*/1)`: the per-row mean of a two-dimensional
tensor.  This is the overload actually selected by the source's
`torch::mean(adv_tensor, true)` (the bool converts to the one-element
`IntArrayRef {1}`; `keepdim` stays `false`), so the result of reducing a
`[B, 1]` column is the length-`B` vector of its own entries, not the batch
mean. -/
noncomputable def meanDim1 (m : List (List ℝ)) : List ℝ := m.map listMean

/-- Broadcast subtraction of a length-`B` vector from a `[B, 1]` column:
`[B, 1] - [B]` broadcasts to `[B, B]` with entry `(i, j) = col[i] - v[j]`. -/
noncomputable def colSubVec (col : List ℝ) (v : List ℝ) : List (List ℝ) :=
  col.map fun a => v.map fun b => a - b

/-- `torch::square`, elementwise on a two-dimensional tensor. -/
noncomputable def matSquare (m : List (List ℝ)) : List (List ℝ) :=
  m.map fun row => row.map fun x => x * x

/-- Broadcast division of a `[B, k]` tensor by a length-`B` vector offset by
a scalar: entry `(i, j) = m[i][j] / (v[j] + c)`. -/
noncomputable def matDivVecAddC (m : List (List ℝ)) (v : List ℝ) (c : ℝ) : List (List ℝ) :=
  m.map fun row => List.zipWith (fun x s => x / (s + c)) row v

/-- Broadcast product of a `[B, k]` tensor with a `[B, 1]` column:
row `i` is scaled by `v[i]`. -/
noncomputable def matMulCol (m : List (List ℝ)) (v : List ℝ) : List (List ℝ) :=
  List.zipWith (fun row r => row.map fun x => x * r) m v

/-- `torch::minimum`, the elementwise minimum of two same-shape tensors. -/
noncomputable def matMin (m1 m2 : List (List ℝ)) : List (List ℝ) :=
  List.zipWith (fun r1 r2 => List.zipWith min r1 r2) m1 m2

/-- `torch::mean` over all elements of a two-dimensional tensor. -/
noncomputable def matMean (m : List (List ℝ)) : ℝ :=
  (m.map List.sum).sum / (((m.map List.length).sum : ℕ) : ℝ)

/-- A process communicator attached to a model pack: its `rank` and its
blocking averaging `allreduce` on a vector of scalars (the collective is an
external collaborator, so the cross-process average it returns is an
oracle). -/
structure Comm where
  rank : ℤ
  allreduceAvg : List ℝ → List ℝ

/-- The per-model training-state counters used for the reporting cadence
(`state->step_train`, `state->report_frequency`,
`state->enable_wandb_hook`). -/
structure ModelState where
  step_train : ℤ
  report_frequency : ℤ
  enable_wandb_hook : Bool

/-- ppo.h lines 203-242, for one model: increment `step_train`, then emit a
log record exactly when `report_frequency > 0`, the incremented counter is
divisible by it (C++ `%` is truncated division's remainder, `Int.tmod`),
and either no communicator is attached or its rank is 0.  Returns the
updated state and whether the record was emitted. -/
def stepAndReport (st : ModelState) (rank : Option ℤ) : ModelState × Bool :=
  let st2 : ModelState := { st with step_train := st.step_train + 1 }
  if 0 < st2.report_frequency ∧ Int.tmod st2.step_train st2.report_frequency = 0 then
    if rank = none ∨ rank = some 0 then (st2, true) else (st2, false)
  else (st2, false)

/-- The minibatch columns consumed by `train_ppo`, together with the
per-sample outputs of the two external network forward passes
(`evaluateAction` giving `newLogP`/`entropy`, the critic giving
`newValue`).  All lists have the leading batch dimension `B`. -/
structure PPOBatch where
  oldLogP : List ℝ
  adv : List ℝ
  ret : List ℝ
  newLogP : List ℝ
  entropy : List ℝ
  newValue : List ℝ

/-- `ratio = exp(new_log_prob - old_log_prob)` (ppo.h lines 133-134). -/
noncomputable def ratiosOf (b : PPOBatch) : List ℝ :=
  (List.zipWith (fun x y => x - y) b.newLogP b.oldLogP).map Real.exp

/-- ppo.h line 99: `torch::mean(adv_tensor, true)` applied to the `[B, 1]`
advantage column — a dim-1 reduction that returns the advantage column
itself as a length-`B` vector. -/
noncomputable def ppoAdvMean (advs : List ℝ) : List ℝ := meanDim1 (toCol advs)

/-- ppo.h lines 98-120: the advantage-normalization block as the source
actually computes it, with the communicator's averaging allreduce applied
to the local "mean" and "std" statistics when attached.  Because the two
`torch::mean(·, true)` calls reduce over dimension 1, the result is a
`[B, B]` tensor, not a normalized `[B, 1]` column. -/
noncomputable def ppoNormalizeAdv (pComm : Option Comm) (advs : List ℝ) :
    List (List ℝ) :=
  let advMean0 := ppoAdvMean advs
  let advMean :=
    match pComm with
    | some c => c.allreduceAvg advMean0
    | none => advMean0
  let advStd0 := meanDim1 (matSquare (colSubVec advs advMean))
  let advStd1 :=
    match pComm with
    | some c => c.allreduceAvg advStd0
    | none => advStd0
  let advStd := advStd1.map Real.sqrt
  matDivVecAddC (colSubVec advs advMean) advStd (1e-8 : ℝ)

/-- The c10 errors this embedding distinguishes. -/
inductive TorchError where
  | meanRequiresFloating
deriving DecidableEq

/-- A one-dimensional torch tensor together with the dtype distinction that
`torch::mean`'s input check cares about: arithmetic on float tensors yields
float tensors, while a comparison such as `abs(ratio - 1) > epsilon`
yields a Bool tensor. -/
inductive ColTensor where
  | float (data : List ℝ)
  | bool (data : List Bool)

/-- `torch::mean` over a one-dimensional tensor.  ATen defines `mean` only
for floating-point (and complex) dtypes; applied to a Bool tensor it raises
`c10::Error` ("mean(): could not infer output dtype..."), modelled here as
an error value. -/
noncomputable def torchMean : ColTensor → Except TorchError ℝ
  | ColTensor.float data => Except.ok (listMean data)
  | ColTensor.bool _ => Except.error TorchError.meanRequiresFloating

/-- The observable outcome of one `train_ppo` call: the output parameters
assigned before ppo.h line 199 (`p_loss_val` and `q_loss_val` at lines
188-189, `kl_divergence` at line 196), the `clip_fraction` output parameter
(`none` when the call throws before assigning it), the error propagating
out of the call, the per-model states, and whether each model emitted a log
record. -/
structure PPOResult where
  pLoss : ℝ
  qLoss : ℝ
  klDivergence : ℝ
  clipFraction : Option ℝ
  raised : Option TorchError
  pStateOut : ModelState
  qStateOut : ModelState
  pLogged : Bool
  qLogged : Bool

/-- The PPO training step, ppo.h lines 61-245.  The backward pass, gradient
allreduces and optimizer/scheduler steps act on external optimizer state and
have no bearing on the scalar outputs, so they are not represented.  Line
199 takes `torch::mean` of the Bool tensor `abs(ratio - 1) > epsilon`
without casting it to a floating dtype; the resulting `c10::Error`
propagates out of the call, leaving `clip_fraction` unassigned and the
reporting block at lines 203-242 unreached.  (`kl_divergence` at line 196
is a mean of a float tensor, which is total and equals `listMean`.) -/
noncomputable def train_ppo (epsilon entropy_loss_coeff q_loss_coeff : ℝ)
    (normalize_advantage : Bool) (pComm qComm : Option Comm) (b : PPOBatch)
    (pState qState : ModelState) : PPOResult :=
  let advMat : List (List ℝ) :=
    if normalize_advantage && decide (1 < b.adv.length) then
      ppoNormalizeAdv pComm b.adv
    else toCol b.adv
  let logRatios := List.zipWith (fun x y => x - y) b.newLogP b.oldLogP
  let ratiosL := logRatios.map Real.exp
  let pLoss1 := matMulCol advMat ratiosL
  let pLoss2 := matMulCol advMat
    (ratiosL.map fun r => clampR r (1 - epsilon) (1 + epsilon))
  let pLoss := -(matMean (matMin pLoss1 pLoss2))
  let qLoss := listMean (List.zipWith (fun r q => (r - q) ^ 2) b.ret b.newValue)
  let entropyLoss := -(listMean b.entropy)
  let _totalLoss := pLoss + q_loss_coeff * qLoss + entropy_loss_coeff * entropyLoss
  let klDivergence := listMean (logRatios.map fun lr => (Real.exp lr - 1) - lr)
  let clipStep :=
    torchMean (ColTensor.bool (ratiosL.map fun r => decide (epsilon < |r - 1|)))
  match clipStep with
  | Except.error e =>
    { pLoss := pLoss, qLoss := qLoss, klDivergence := klDivergence,
      clipFraction := none, raised := some e,
      pStateOut := pState, qStateOut := qState,
      pLogged := false, qLogged := false }
  | Except.ok cf =>
    let pStep := stepAndReport pState (pComm.map Comm.rank)
    let qStep := stepAndReport qState (qComm.map Comm.rank)
    { pLoss := pLoss, qLoss := qLoss, klDivergence := klDivergence,
      clipFraction := some cf, raised := none,
      pStateOut := pStep.1, qStateOut := qStep.1,
      pLogged := pStep.2, qLogged := qStep.2 }

/-! ## The minibatch sanity checks (ppo.h lines 71-83) -/

/-- `Tensor::size(i)` of a tensor whose shape is the given dimension list. -/
def dimSize (dims : List ℤ) (i : ℕ) : ℤ := dims.getD i 0

/-- The shapes of the six minibatch tensors passed to `train_ppo`, in the
source's order. -/
structure MinibatchShapes where
  state : List ℤ
  action : List ℤ
  q : List ℤ
  log_p : List ℤ
  adv : List ℤ
  ret : List ℤ

/-- ppo.h lines 71-83: the assertion battery run before any computation.
`batch_size` is `state.size(0)`; every other tensor's `size(0)` must equal
it, and the four scalar-valued columns must have `size(1) == 1`. -/
def ppoSanityChecks (m : MinibatchShapes) : Bool :=
  let batch_size := dimSize m.state 0
  (dimSize m.action 0 == batch_size) && (dimSize m.q 0 == batch_size) &&
  (dimSize m.log_p 0 == batch_size) && (dimSize m.adv 0 == batch_size) &&
  (dimSize m.ret 0 == batch_size) &&
  (dimSize m.q 1 == 1) && (dimSize m.log_p 1 == 1) &&
  (dimSize m.adv 1 == 1) && (dimSize m.ret 1 == 1)

/-- A tensor shape with exactly one trailing singleton dimension beyond the
batch dimension, i.e. `[B, 1]`: the claimed precondition for the four
scalar-valued minibatch columns. -/
def exactlyOneTrailingSingleton (dims : List ℤ) : Prop :=
  dims.length = 2 ∧ dimSize dims 1 = 1

/-- The precondition set the claim says the sanity checks enforce: equal
leading batch dimensions for all six tensors and exactly one trailing
singleton dimension for each of the four scalar-valued columns. -/
def claimedShapePre (m : MinibatchShapes) : Prop :=
  dimSize m.action 0 = dimSize m.state 0 ∧ dimSize m.q 0 = dimSize m.state 0 ∧
  dimSize m.log_p 0 = dimSize m.state 0 ∧ dimSize m.adv 0 = dimSize m.state 0 ∧
  dimSize m.ret 0 = dimSize m.state 0 ∧
  exactlyOneTrailingSingleton m.q ∧ exactlyOneTrailingSingleton m.log_p ∧
  exactlyOneTrailingSingleton m.adv ∧ exactlyOneTrailingSingleton m.ret

/-! ## Lemmas about the GAE-λ finalization pass -/

theorem finalizeEntries_length (g l bv : ℚ) (es : List Entry) :
    (finalizeEntries g l bv es).length = es.length := by
  induction es with
  | nil => rfl
  | cons e rest ih => simp [finalizeEntries, ih]

theorem finalizeEntries_mem_ret (g l bv : ℚ) (es : List Entry) :
    ∀ f ∈ finalizeEntries g l bv es, f.ret = f.advantage + f.q := by
  induction es with
  | nil => intro f hf; simp [finalizeEntries] at hf
  | cons e rest ih =>
    intro f hf
    rcases List.mem_cons.mp hf with h | h
    · subst h; rfl
    · exact ih f h

theorem nextQ_finalizeEntries (g l bv bv2 : ℚ) (es : List Entry) :
    nextQ bv2 (finalizeEntries g l bv es) = nextQ bv2 es := by
  cases es <;> rfl

theorem finalizeEntries_idem (g l bv : ℚ) (es : List Entry) :
    finalizeEntries g l bv (finalizeEntries g l bv es) = finalizeEntries g l bv es := by
  induction es with
  | nil => rfl
  | cons e rest ih =>
    simp only [finalizeEntries]
    rw [ih, nextQ_finalizeEntries]

theorem finalizeEntries_getD_q (g l bv : ℚ) (es : List Entry) (t : ℕ)
    (ht : t < es.length) :
    ((finalizeEntries g l bv es).getD t defaultEntry).q
      = (es.getD t defaultEntry).q := by
  induction es generalizing t with
  | nil => simp at ht
  | cons e rest ih =>
    cases t with
    | zero => rfl
    | succ t2 =>
      have ht2 : t2 < rest.length := by simpa using ht
      simpa only [finalizeEntries, List.getD_cons_succ] using ih t2 ht2

theorem finalizeEntries_adv_rec (g l bv : ℚ) (es : List Entry) (t : ℕ)
    (ht : t < es.length) :
    ((finalizeEntries g l bv es).getD t defaultEntry).advantage =
      ((es.getD t defaultEntry).reward
        + g * (if t + 1 < es.length then (es.getD (t + 1) defaultEntry).q else bv)
            * (if (es.getD t defaultEntry).done then 0 else 1)
        - (es.getD t defaultEntry).q)
      + g * l * (if (es.getD t defaultEntry).done then 0 else 1)
          * ((finalizeEntries g l bv es).getD (t + 1) defaultEntry).advantage := by
  induction es generalizing t with
  | nil => simp at ht
  | cons e rest ih =>
    cases t with
    | zero =>
      cases rest with
      | nil => simp [finalizeEntries, nextQ, headAdv, defaultEntry]
      | cons e2 rest2 => simp [finalizeEntries, nextQ, headAdv]
    | succ t2 =>
      have ht2 : t2 < rest.length := by simpa using ht
      have h := ih t2 ht2
      simp only [finalizeEntries, List.getD_cons_succ, List.length_cons]
      simpa [Nat.add_lt_add_iff_right] using h

/-! ## Concrete buffer fixtures used by the witnesses and counterexamples -/

/-- A two-entry buffer (`gamma = 1/2`, `lambda = 1/4`), not yet finalized. -/
def bufA : RolloutBuffer :=
  { capacity := 2, gamma := 1 / 2, gae_lambda := 1 / 4,
    entries :=
      [{ state := [0], action := [1], reward := 1, q := 2, log_p := 0,
         done := false, advantage := 0, ret := 0 },
       { state := [1], action := [1], reward := 3, q := 1, log_p := 0,
         done := true, advantage := 0, ret := 0 }],
    written := 2, finalized := false }

/-- A ready, finalized one-entry buffer whose entry carries advantage 5 and
return 7. -/
def bufB1 : RolloutBuffer :=
  { capacity := 1, gamma := 1, gae_lambda := 1,
    entries :=
      [{ state := [0], action := [0], reward := 1, q := 2, log_p := 3,
         done := false, advantage := 5, ret := 7 }],
    written := 1, finalized := true }

/-- Identical to `bufB1` except that the stored advantage is 9 and the
stored return is 11. -/
def bufB2 : RolloutBuffer :=
  { capacity := 1, gamma := 1, gae_lambda := 1,
    entries :=
      [{ state := [0], action := [0], reward := 1, q := 2, log_p := 3,
         done := false, advantage := 9, ret := 11 }],
    written := 1, finalized := true }

/-- An empty, not-yet-ready buffer. -/
def bufEmpty : RolloutBuffer :=
  { capacity := 2, gamma := 1, gae_lambda := 1, entries := [],
    written := 0, finalized := false }

/-! ## Claims about the rollout buffer -/

/-- **C1**: after `finalize` has run, every stored entry satisfies
`return = advantage + value_estimate` exactly (the buffer is modelled over
ℚ, so "up to floating-point rounding" becomes exact equality), regardless
of the buffer contents; consequently, for every minibatch drawn by
`sample`, the mean of `|value_estimate - (return - advantage)|` is below
`1e-7` (it is exactly 0). -/
theorem entry_consistency_after_finalize (buf : RolloutBuffer) (bv : ℚ) (bd : Bool) :
    (∀ e ∈ (buf.finalize bv bd).entries, e.ret = e.advantage + e.q)
    ∧ ∀ idxs batch, (buf.finalize bv bd).sample idxs = Except.ok batch →
        (batch.map fun row => |row.q - (row.ret - row.advantage)|).sum
          / (batch.length : ℚ) < 1 / 10000000 := by
  constructor
  · exact finalizeEntries_mem_ret buf.gamma buf.gae_lambda bv buf.entries
  · intro idxs batch h
    have hbatch :
        batch = idxs.map fun i =>
          (((buf.finalize bv bd).entries.getD i defaultEntry)).toSampleRow := by
      unfold RolloutBuffer.sample at h
      split at h
      · simp at h
      · split at h
        · simp at h
        · split at h
          · injection h with h2; exact h2.symm
          · simp at h
    have hzero :
        (batch.map fun row => |row.q - (row.ret - row.advantage)|).sum = 0 := by
      apply List.sum_eq_zero
      intro x hx
      obtain ⟨row, hrow, rfl⟩ := List.mem_map.mp hx
      subst hbatch
      obtain ⟨i, _, rfl⟩ := List.mem_map.mp hrow
      set f := (buf.finalize bv bd).entries with hf
      have hinv : (f.getD i defaultEntry).ret
          = (f.getD i defaultEntry).advantage + (f.getD i defaultEntry).q := by
        by_cases hi : i < f.length
        · exact finalizeEntries_mem_ret buf.gamma buf.gae_lambda bv buf.entries _
            (by rw [List.getD_eq_getElem _ _ hi]; exact List.getElem_mem hi)
        · rw [List.getD_eq_default _ _ (by omega)]
          simp [defaultEntry]
      have hval : (f.getD i defaultEntry).toSampleRow.q
          - ((f.getD i defaultEntry).toSampleRow.ret
            - (f.getD i defaultEntry).toSampleRow.advantage) = 0 := by
        show (f.getD i defaultEntry).q
          - ((f.getD i defaultEntry).ret - (f.getD i defaultEntry).advantage) = 0
        rw [hinv]; ring
      rw [hval, abs_zero]
    rw [hzero]
    have hdiv : (0 : ℚ) / (batch.length : ℚ) = 0 := by simp
    rw [hdiv]
    norm_num

/-- The first entry of `bufA` as finalized with bootstrap value 5. -/
def entryA0 : Entry :=
  { state := [0], action := [1], reward := 1, q := 2, log_p := 0,
    done := false, advantage := -(1/4), ret := 7/4 }

/-- The second entry of `bufA` as finalized with bootstrap value 5. -/
def entryA1 : Entry :=
  { state := [1], action := [1], reward := 3, q := 1, log_p := 0,
    done := true, advantage := 2, ret := 3 }

/-- The first sampled row of the finalized `bufA`. -/
def rowA0 : SampleRow :=
  { state := [0], action := [1], q := 2, log_p := 0,
    advantage := -(1/4), ret := 7/4 }

/-- The second sampled row of the finalized `bufA`. -/
def rowA1 : SampleRow :=
  { state := [1], action := [1], q := 1, log_p := 0, advantage := 2, ret := 3 }

theorem bufA_finalize_entries :
    (bufA.finalize 5 false).entries = [entryA0, entryA1] := by
  show finalizeEntries (1/2) (1/4) 5 bufA.entries = [entryA0, entryA1]
  simp only [bufA, finalizeEntries, nextQ, headAdv]
  norm_num [entryA0, entryA1]

theorem bufA_sample_eval :
    (bufA.finalize 5 false).sample [0, 1] = Except.ok [rowA0, rowA1] := by
  unfold RolloutBuffer.sample
  rw [show (bufA.finalize 5 false).entries = [entryA0, entryA1] from bufA_finalize_entries]
  simp only [RolloutBuffer.finalize, RolloutBuffer.isReady, bufA]
  norm_num [Entry.toSampleRow, rowA0, rowA1, entryA0, entryA1]

/-- **C1 witness**: the invariant and the sampled-minibatch bound evaluated
on the concrete buffer `bufA` finalized with bootstrap value 5. -/
theorem entry_consistency_after_finalize_witness :
    entryA0.ret = entryA0.advantage + entryA0.q
    ∧ ([rowA0, rowA1].map fun row => |row.q - (row.ret - row.advantage)|).sum
        / (([rowA0, rowA1].length : ℚ)) < 1 / 10000000 :=
  ⟨(entry_consistency_after_finalize bufA 5 false).1 entryA0
      (by rw [bufA_finalize_entries]; exact List.mem_cons_self _ _),
   (entry_consistency_after_finalize bufA 5 false).2 [0, 1] [rowA0, rowA1]
      bufA_sample_eval⟩

/-- **C2**: `finalize(bootstrap_value, bootstrap_done)` computes, for every
index `t` of the stored window, `advantage[t] = delta + gamma * lambda *
next_nonterminal * advantage[t+1]` with `delta = reward[t] + gamma *
next_value * next_nonterminal - value_estimate[t]`, `next_value =
value_estimate[t+1]` (or the bootstrap value at the window end),
`next_nonterminal = 0` iff `done[t]`, and `return[t] = advantage[t] +
value_estimate[t]`; in particular, whenever `done[t]` is true, the
advantage at `t` collapses to `reward[t] - value_estimate[t]`, independent
of every later reward, value estimate, or advantage. -/
theorem gae_backward_recursion (buf : RolloutBuffer) (bv : ℚ) (bd : Bool) (t : ℕ)
    (ht : t < buf.entries.length) :
    (((buf.finalize bv bd).entries.getD t defaultEntry).advantage =
      ((buf.entries.getD t defaultEntry).reward
        + buf.gamma
            * (if t + 1 < buf.entries.length
               then (buf.entries.getD (t + 1) defaultEntry).q else bv)
            * (if (buf.entries.getD t defaultEntry).done then 0 else 1)
        - (buf.entries.getD t defaultEntry).q)
      + buf.gamma * buf.gae_lambda
          * (if (buf.entries.getD t defaultEntry).done then 0 else 1)
          * ((buf.finalize bv bd).entries.getD (t + 1) defaultEntry).advantage)
    ∧ ((buf.finalize bv bd).entries.getD t defaultEntry).ret
        = ((buf.finalize bv bd).entries.getD t defaultEntry).advantage
          + (buf.entries.getD t defaultEntry).q
    ∧ ((buf.entries.getD t defaultEntry).done = true →
        ((buf.finalize bv bd).entries.getD t defaultEntry).advantage
          = (buf.entries.getD t defaultEntry).reward
            - (buf.entries.getD t defaultEntry).q) := by
  have hrec := finalizeEntries_adv_rec buf.gamma buf.gae_lambda bv buf.entries t ht
  have hlen : t < (finalizeEntries buf.gamma buf.gae_lambda bv buf.entries).length := by
    rw [finalizeEntries_length]; exact ht
  refine ⟨hrec, ?_, ?_⟩
  · have hmem : (finalizeEntries buf.gamma buf.gae_lambda bv buf.entries).getD t defaultEntry
        ∈ finalizeEntries buf.gamma buf.gae_lambda bv buf.entries := by
      rw [List.getD_eq_getElem _ _ hlen]; exact List.getElem_mem hlen
    have hq := finalizeEntries_getD_q buf.gamma buf.gae_lambda bv buf.entries t ht
    have hret := finalizeEntries_mem_ret buf.gamma buf.gae_lambda bv buf.entries _ hmem
    show ((finalizeEntries buf.gamma buf.gae_lambda bv buf.entries).getD t defaultEntry).ret
        = ((finalizeEntries buf.gamma buf.gae_lambda bv buf.entries).getD t defaultEntry).advantage
          + (buf.entries.getD t defaultEntry).q
    rw [hret, hq]
  · intro hdone
    rw [hdone] at hrec
    simpa using hrec

/-- **C2 witness**: on `bufA`, entry 1 has `done = true`, and its advantage
after finalization is exactly `reward - value_estimate`. -/
theorem gae_backward_recursion_witness :
    ((bufA.finalize 5 false).entries.getD 1 defaultEntry).advantage
      = (bufA.entries.getD 1 defaultEntry).reward
        - (bufA.entries.getD 1 defaultEntry).q :=
  (gae_backward_recursion bufA 5 false 1 (by simp [bufA])).2.2 (by simp [bufA])

/-- **C9**: finalizing twice with the same bootstrap arguments, with no
writes in between, produces exactly the same buffer — in particular the
same advantage and return on every entry — as finalizing once. -/
theorem finalize_idempotent (buf : RolloutBuffer) (bv : ℚ) (bd : Bool) :
    (buf.finalize bv bd).finalize bv bd = buf.finalize bv bd := by
  unfold RolloutBuffer.finalize
  simp [finalizeEntries_idem]

/-- **C6**: `sample` and `get` fail with an error whenever the buffer is
not ready (fewer than `capacity` entries written), and whenever `finalize`
has not run since the last write; the fault is surfaced as an error value,
never silently coerced. -/
theorem sample_get_gating (buf : RolloutBuffer) (i : ℕ) (idxs : List ℕ) :
    (buf.isReady = false →
      faulted (buf.get i) = true ∧ faulted (buf.sample idxs) = true)
    ∧ (buf.finalized = false →
      faulted (buf.get i) = true ∧ faulted (buf.sample idxs) = true) := by
  unfold RolloutBuffer.get RolloutBuffer.sample
  constructor
  · intro h
    rw [h]
    simp [faulted]
  · intro h
    rw [h]
    constructor
    · split <;> simp [faulted]
    · split <;> simp [faulted]

/-- **C6 witness**: on the empty, unready, unfinalized buffer, both `get 0`
and `sample []` fault. -/
theorem sample_get_gating_witness :
    (faulted (bufEmpty.get 0) = true ∧ faulted (bufEmpty.sample []) = true)
    ∧ (faulted (bufEmpty.get 0) = true ∧ faulted (bufEmpty.sample []) = true) :=
  ⟨(sample_get_gating bufEmpty 0 []).1 (by decide),
   (sample_get_gating bufEmpty 0 []).2 (by decide)⟩

/-- **C5 counterexample**: `get(i)` does not return the advantage and
return fields.  The buffers `bufB1` and `bufB2` differ only in the stored
advantage/return of their single entry, yet `get 0` yields the identical
result on both; the in-source caller (`print_buffer` in
`test_rollout_buffer.cpp`) confirms `get` returns only
`(state, action, reward, q, log_p, done)`. -/
theorem get_omits_advantage_counterexample :
    bufB1.get 0 = bufB2.get 0
    ∧ (bufB1.entries.getD 0 defaultEntry).advantage
        ≠ (bufB2.entries.getD 0 defaultEntry).advantage
    ∧ (bufB1.entries.getD 0 defaultEntry).ret
        ≠ (bufB2.entries.getD 0 defaultEntry).ret :=
  ⟨rfl, by norm_num [bufB1, bufB2], by norm_num [bufB1, bufB2]⟩

/-- **C5 (amended)**: on a ready, finalized buffer holding `capacity`
entries, `get i` returns the tuple `(state, action, reward, value_estimate,
log_prob, done)` of the stored entry at logical index `i`, 0-based and
oldest-first; any index outside `[0, capacity)` is a fault. -/
theorem get_logical_index (buf : RolloutBuffer) (hr : buf.isReady = true)
    (hf : buf.finalized = true) (hwf : buf.entries.length = buf.capacity) (i : ℕ) :
    (i < buf.capacity →
      buf.get i = Except.ok (buf.entries.getD i defaultEntry).toGetRow)
    ∧ (buf.capacity ≤ i → buf.get i = Except.error RBFault.outOfRange) := by
  unfold RolloutBuffer.get
  rw [hr, hf]
  simp only [Bool.true_eq_false, if_false]
  constructor
  · intro hi
    rw [← hwf] at hi
    rw [List.getD_eq_getElem _ _ hi]
    rw [List.get?_eq_getElem?, List.getElem?_eq_getElem hi]
  · intro hi
    have hnone : buf.entries.get? i = none := by
      rw [List.get?_eq_getElem?, List.getElem?_eq_none]
      omega
    rw [hnone]

/-- **C5 witness**: on the concrete ready buffer `bufB1`, `get 0` returns
the stored tuple and `get 3` faults. -/
theorem get_logical_index_witness :
    bufB1.get 0
      = Except.ok (bufB1.entries.getD 0 defaultEntry).toGetRow
    ∧ bufB1.get 3 = Except.error RBFault.outOfRange :=
  ⟨(get_logical_index bufB1 rfl rfl rfl 0).1 (by decide),
   (get_logical_index bufB1 rfl rfl rfl 3).2 (by decide)⟩

/-! ## Lemmas about the PPO training step -/

theorem stepAndReport_spec (st : ModelState) (rank : Option ℤ) :
    (stepAndReport st rank).1.step_train = st.step_train + 1
    ∧ ((stepAndReport st rank).2 = true ↔
        (0 < st.report_frequency ∧ st.report_frequency ∣ (st.step_train + 1)
          ∧ (rank = none ∨ rank = some 0))) := by
  have hdvd : st.report_frequency ∣ (st.step_train + 1)
      ↔ Int.tmod (st.step_train + 1) st.report_frequency = 0 :=
    Int.dvd_iff_tmod_eq_zero
  simp only [stepAndReport]
  split_ifs with h1 h2
  · exact ⟨rfl, ⟨fun _ => ⟨h1.1, hdvd.mpr h1.2, h2⟩, fun _ => rfl⟩⟩
  · exact ⟨rfl, iff_of_false (by simp) (fun hc => h2 hc.2.2)⟩
  · exact ⟨rfl, iff_of_false (by simp) (fun hc => h1 ⟨hc.1, hdvd.mp hc.2.1⟩)⟩

theorem toCol_sums (v : List ℝ) : (toCol v).map List.sum = v := by
  unfold toCol
  rw [List.map_map]
  have hcomp : (List.sum ∘ fun a : ℝ => [a]) = id := by
    funext a
    simp
  rw [hcomp, List.map_id]

theorem toCol_lens (v : List ℝ) : ((toCol v).map List.length).sum = v.length := by
  unfold toCol
  rw [List.map_map]
  have hcomp : (List.length ∘ fun a : ℝ => [a]) = fun _ => 1 := by
    funext a
    simp
  rw [hcomp]
  induction v with
  | nil => rfl
  | cons a as ih => simp only [List.map_cons, List.sum_cons, List.length_cons, ih]; omega

theorem matMean_toCol (v : List ℝ) : matMean (toCol v) = listMean v := by
  unfold matMean listMean
  rw [toCol_sums, toCol_lens]

theorem minColumn_aux (f : ℝ → ℝ) (a rs : List ℝ) :
    List.zipWith (fun r1 r2 => List.zipWith min r1 r2)
      (List.zipWith (fun row r => row.map fun x => x * r) (a.map fun y => [y]) rs)
      (List.zipWith (fun row r => row.map fun x => x * r) (a.map fun y => [y])
        (rs.map f))
      = (List.zipWith (fun x r => min (x * r) (x * f r)) a rs).map fun y => [y] := by
  induction a generalizing rs with
  | nil => simp
  | cons x a2 ih =>
    cases rs with
    | nil => simp
    | cons r rs2 =>
      simp only [List.map_cons, List.zipWith_cons_cons]
      congr 1
      exact ih rs2

theorem minColumn_eq (f : ℝ → ℝ) (a rs : List ℝ) :
    matMin (matMulCol (toCol a) rs) (matMulCol (toCol a) (rs.map f))
      = toCol (List.zipWith (fun x r => min (x * r) (x * f r)) a rs) := by
  unfold matMin matMulCol toCol
  exact minColumn_aux f a rs

/-! ## Fixtures for the PPO claims -/

/-- The all-zero model state (counters at 0, reporting disabled). -/
def stZero : ModelState :=
  { step_train := 0, report_frequency := 0, enable_wandb_hook := false }

/-- A two-sample minibatch with constant advantage 1 and unchanged policy
(new log-probabilities equal to the old ones). -/
noncomputable def batchC : PPOBatch :=
  { oldLogP := [0, 0], adv := [1, 1], ret := [0, 0],
    newLogP := [0, 0], entropy := [0, 0], newValue := [0, 0] }

/-- A one-sample minibatch with unchanged policy. -/
noncomputable def batchD : PPOBatch :=
  { oldLogP := [0], adv := [1], ret := [0],
    newLogP := [0], entropy := [0], newValue := [0] }

/-- The shapes `state/action = [2, 3]`, `q = [2, 1, 7]`, the other three
columns `[2, 1]`. -/
def shapesBad : MinibatchShapes :=
  { state := [2, 3], action := [2, 3], q := [2, 1, 7], log_p := [2, 1],
    adv := [2, 1], ret := [2, 1] }

/-! ## Claims about the PPO training step -/

/-- **C10** (code bug): the counter/reporting block (ppo.h lines 203-242)
is unreachable.  The `c10::Error` raised by the uncast Bool-tensor mean at
line 199 propagates out of every `train_ppo` call first, so neither model's
`step_train` is ever incremented and no log record is ever emitted.  (The
block's own logic — increment, then log iff `report_frequency > 0`, the
incremented counter divides it, and no communicator or rank 0 — is exactly
as the claim states; see `stepAndReport_spec`.) -/
theorem train_counters_unreachable (eps ec qc : ℝ) (na : Bool)
    (pComm qComm : Option Comm) (b : PPOBatch) (pS qS : ModelState) :
    (train_ppo eps ec qc na pComm qComm b pS qS).pStateOut = pS
    ∧ (train_ppo eps ec qc na pComm qComm b pS qS).qStateOut = qS
    ∧ (train_ppo eps ec qc na pComm qComm b pS qS).pLogged = false
    ∧ (train_ppo eps ec qc na pComm qComm b pS qS).qLogged = false :=
  ⟨rfl, rfl, rfl, rfl⟩

/-- **C8 counterexample**: the assertion battery does not enforce "exactly
one trailing singleton dimension": the shape set `shapesBad`, whose
`old_value` column has shape `[2, 1, 7]`, passes every assert even though
that column is three-dimensional. -/
theorem sanity_checks_counterexample :
    ppoSanityChecks shapesBad = true ∧ ¬ claimedShapePre shapesBad := by
  constructor
  · rfl
  · intro h
    have h2 := h.2.2.2.2.2.1.1
    simp [shapesBad] at h2

/-- **C8 (amended)**: the assertion battery, run before any computation,
passes iff all six tensors share `size(0)` and each of the four
scalar-valued columns has `size(1) == 1` (extra trailing dimensions beyond
the second are not rejected); under the claim's stronger shape
preconditions the error branch is indeed unreachable. -/
theorem sanity_checks_characterization (m : MinibatchShapes) :
    (ppoSanityChecks m = true ↔
      (dimSize m.action 0 = dimSize m.state 0 ∧ dimSize m.q 0 = dimSize m.state 0
        ∧ dimSize m.log_p 0 = dimSize m.state 0 ∧ dimSize m.adv 0 = dimSize m.state 0
        ∧ dimSize m.ret 0 = dimSize m.state 0
        ∧ dimSize m.q 1 = 1 ∧ dimSize m.log_p 1 = 1
        ∧ dimSize m.adv 1 = 1 ∧ dimSize m.ret 1 = 1))
    ∧ (claimedShapePre m → ppoSanityChecks m = true) := by
  have hiff : ppoSanityChecks m = true ↔
      (dimSize m.action 0 = dimSize m.state 0 ∧ dimSize m.q 0 = dimSize m.state 0
        ∧ dimSize m.log_p 0 = dimSize m.state 0 ∧ dimSize m.adv 0 = dimSize m.state 0
        ∧ dimSize m.ret 0 = dimSize m.state 0
        ∧ dimSize m.q 1 = 1 ∧ dimSize m.log_p 1 = 1
        ∧ dimSize m.adv 1 = 1 ∧ dimSize m.ret 1 = 1) := by
    unfold ppoSanityChecks
    simp only [Bool.and_eq_true, beq_iff_eq]
    tauto
  refine ⟨hiff, ?_⟩
  intro h
  rcases h with ⟨h1, h2, h3, h4, h5, hq, hl, ha, hr⟩
  exact hiff.mpr ⟨h1, h2, h3, h4, h5, hq.2, hl.2, ha.2, hr.2⟩

/-- **C4** (code bug): the advantage-normalization block does not compute
the batch mean.  `torch::mean(adv_tensor, true)` reduces over dimension 1
(the trailing singleton), so for the advantage column `[1, 3]` the computed
"mean" is the column `[1, 3]` itself rather than the batch mean 2 on every
entry, and the "normalized" advantage tensor that reaches the policy loss
is a `2 × 2` matrix instead of a normalized `[2, 1]` column. -/
theorem advantage_mean_dim_bug :
    ppoAdvMean [(1 : ℝ), 3] = [1, 3]
    ∧ ppoAdvMean [(1 : ℝ), 3] ≠ List.replicate 2 (listMean [(1 : ℝ), 3])
    ∧ (ppoNormalizeAdv none [(1 : ℝ), 3]).map List.length = [2, 2] := by
  have h1 : ppoAdvMean [(1 : ℝ), 3] = [1, 3] := by
    norm_num [ppoAdvMean, meanDim1, toCol, listMean]
  have h2 : listMean [(1 : ℝ), 3] = 2 := by norm_num [listMean]
  refine ⟨h1, ?_, ?_⟩
  · rw [h1, h2]
    intro hc
    simp only [List.replicate] at hc
    injection hc with h3 h4
    norm_num at h3
  · simp only [ppoNormalizeAdv, h1]
    simp [colSubVec, matSquare, matDivVecAddC, meanDim1, List.length_zipWith]

/-- **C3 counterexample**: with advantage normalization active, the policy
loss is not the negated mean of the per-sample clipped surrogate over the
minibatch's advantage column: on `batchC` (advantages `[1, 1]`, unchanged
policy, `ε = 1/5`) the training step produces policy loss 0 while the
claimed formula evaluates to -1. -/
theorem policy_loss_counterexample :
    (train_ppo (1/5) 0 0 true none none batchC stZero stZero).pLoss = 0
    ∧ -(listMean (List.zipWith
        (fun a r => min (a * r) (a * clampR r (1 - (1/5)) (1 + (1/5))))
        batchC.adv (ratiosOf batchC))) = -1
    ∧ (0 : ℝ) ≠ -1 := by
  refine ⟨?_, ?_, by norm_num⟩
  · simp only [train_ppo, batchC, torchMean]
    norm_num [ppoNormalizeAdv, ppoAdvMean, meanDim1, toCol, colSubVec, matSquare,
      matDivVecAddC, matMulCol, matMin, matMean, listMean, Real.exp_zero,
      Real.sqrt_zero, clampR, min_def, max_def]
  · norm_num [listMean, ratiosOf, batchC, clampR, Real.exp_zero, min_def, max_def]

/-- **C3 (amended)**: whenever the advantage normalization step is not
applied (flag unset, or batch size at most 1), the policy loss equals the
negated mean over samples of the per-sample (element-wise) minimum of
`advantage * ratio` and `advantage * clamp(ratio, 1-ε, 1+ε)` with
`ratio = exp(new_log_prob - old_log_prob)`; the minimum is taken per sample
before averaging, via `torch::minimum`, never as a batch reduction.  (When
normalization is active the advantage tensor entering the loss is the
faultily normalized one — see C4.) -/
theorem policy_loss_elementwise_min (eps ec qc : ℝ) (na : Bool)
    (pComm qComm : Option Comm) (b : PPOBatch) (pS qS : ModelState)
    (h : na = false ∨ b.adv.length ≤ 1) :
    (train_ppo eps ec qc na pComm qComm b pS qS).pLoss
      = -(listMean (List.zipWith
          (fun a r => min (a * r) (a * clampR r (1 - eps) (1 + eps)))
          b.adv (ratiosOf b))) := by
  have hcond : (na && decide (1 < b.adv.length)) = false := by
    rcases h with h | h
    · simp [h]
    · have hx : ¬ 1 < b.adv.length := by omega
      simp [hx]
  simp only [train_ppo, hcond, Bool.false_eq_true, if_false]
  rw [minColumn_eq, matMean_toCol]
  rfl

/-- **C3 witness**: the amended statement evaluated on the one-sample
minibatch `batchD` with normalization off. -/
theorem policy_loss_elementwise_min_witness :
    (train_ppo (1/5) 0 0 false none none batchD stZero stZero).pLoss
      = -(listMean (List.zipWith
          (fun a r => min (a * r) (a * clampR r (1 - (1/5)) (1 + (1/5))))
          batchD.adv (ratiosOf batchD))) :=
  policy_loss_elementwise_min (1/5) 0 0 false none none batchD stZero stZero
    (Or.inl rfl)

/-- **C7** (code bug): the `clip_fraction` diagnostic is never emitted.
ppo.h line 199 takes `torch::mean` of the Bool tensor
`abs(ratio - 1) > epsilon` without first casting it to a floating dtype
(the reference implementation inserts `.float()` there), so ATen raises
`c10::Error` on every minibatch and every `epsilon`: the call aborts at
line 199 and the `clip_fraction` output parameter is never assigned. -/
theorem clip_fraction_never_emitted (eps ec qc : ℝ) (na : Bool)
    (pComm qComm : Option Comm) (b : PPOBatch) (pS qS : ModelState) :
    (train_ppo eps ec qc na pComm qComm b pS qS).clipFraction = none
    ∧ (train_ppo eps ec qc na pComm qComm b pS qS).raised
        = some TorchError.meanRequiresFloating :=
  ⟨rfl, rfl⟩

end TorchFort
